import Mathlib

/-
Shallow embedding of `src/index.js` of sirilgsq/validate-request-body:
an Express middleware factory `validateRequestBody(rules)` that validates
`req.body` against a list of declarative rules, accumulating error strings
and building a sanitized body.

JavaScript runtime values are modelled by the inductive `JSValue`
(numbers as `Int`; the claims under study only involve integral bounds).
User-supplied `RegExp` objects and custom validator functions are opaque
to the middleware, so they are modelled as opaque Lean functions carried
inside the rule: `regex` by its `.test` behaviour on the value, and
`customValidator` by a function returning `Option String` (`none` for a
JS `undefined` return; the JS truthiness check also rejects `""`).
-/

namespace VRB

/-- Model of a JavaScript runtime value as seen by the validator. -/
inductive JSValue where
  | undefined : JSValue
  | null : JSValue
  | str : String → JSValue
  | num : Int → JSValue
  | bool : Bool → JSValue
  | arr : List JSValue → JSValue
  | obj : List (String × JSValue) → JSValue

/-- JavaScript `typeof` on the modelled values (`typeof null` is `"object"`,
arrays are `"object"`). -/
def typeofJS : JSValue → String
  | .undefined => "undefined"
  | .null => "object"
  | .str _ => "string"
  | .num _ => "number"
  | .bool _ => "boolean"
  | .arr _ => "object"
  | .obj _ => "object"

/-- JavaScript `Array.isArray`. -/
def isArray : JSValue → Bool
  | .arr _ => true
  | _ => false

/-- The character class `\s` of a JavaScript regular expression: tab, LF,
VT, FF, CR, space, NBSP, ZWNBSP and the Unicode space separators. -/
def jsWhitespace (c : Char) : Bool :=
  c == '\t' || c == '\n' || c == Char.ofNat 0x0B || c == Char.ofNat 0x0C ||
  c == '\r' || c == ' ' || c == Char.ofNat 0xA0 || c == Char.ofNat 0x1680 ||
  (0x2000 ≤ c.toNat && c.toNat ≤ 0x200A) || c == Char.ofNat 0x2028 ||
  c == Char.ofNat 0x2029 || c == Char.ofNat 0x202F || c == Char.ofNat 0x205F ||
  c == Char.ofNat 0x3000 || c == Char.ofNat 0xFEFF

/-- A character admitted by the class `[^\s@]` of the e-mail pattern. -/
def emailCharOk (c : Char) : Bool := !jsWhitespace c && c != '@'

/-- Test of the anchored pattern `^[^\s@]+@[^\s@]+\.[^\s@]+$` used for type
`email`: the string splits as `a ++ "@" ++ b ++ "." ++ c` with `a`, `b`, `c`
nonempty and free of whitespace and `@`.  Equivalently, some position `i`
holds `@`, some later position `j` holds `.` with at least one character
strictly between them and after `j`, and every position other than `i` holds
a `[^\s@]` character. -/
def emailRegexTest (s : String) : Bool :=
  let cs := s.toList
  let n := cs.length
  (List.range n).any fun i =>
    (List.range n).any fun j =>
      cs.getD i ' ' == '@' && cs.getD j ' ' == '.' &&
      decide (1 ≤ i) && decide (i + 2 ≤ j) && decide (j + 2 ≤ n) &&
      (List.range n).all fun k => k == i || emailCharOk (cs.getD k ' ')

/-- One validation rule, as destructured at the top of the `forEach` body in
`validateRequestBody`.  `type` is `Option String` because the JS object may
omit it (then `rule.type` is `undefined`). -/
structure Rule where
  key : String
  type : Option String := none
  required : Bool := false
  min : Option Int := none
  max : Option Int := none
  regex : Option (JSValue → Bool) := none
  customValidator : Option (JSValue → Option String) := none

/-- A request body: `req.body`, a JS object, as an association list.
Property access `req.body[key]` is `lookupBody`. -/
def Body := List (String × JSValue)

/-- `req.body[key]`: the first binding of `key`, else `undefined`. -/
def lookupBody (body : Body) (k : String) : JSValue :=
  match List.find? (fun p => p.1 == k) body with
  | some p => p.2
  | none => .undefined

/-- `isPresent`: `value !== undefined && value !== null && value !== ""`. -/
def isPresent : JSValue → Bool
  | .undefined => false
  | .null => false
  | .str s => s != ""
  | _ => true

/-- The string `${type}` interpolates to in the JS error message (an omitted
`type` prints as `"undefined"`). -/
def typeTag : Option String → String
  | some t => t
  | none => "undefined"

mutual

/-- JavaScript `String(value)` on the modelled values, as used when a value
is coerced to a property key: arrays stringify via `Array.prototype.join`
with `","`, plain objects as `"[object Object]"`. -/
def jsToString : JSValue → String
  | .undefined => "undefined"
  | .null => "null"
  | .str s => s
  | .num n => toString n
  | .bool b => if b then "true" else "false"
  | .obj _ => "[object Object]"
  | .arr xs => String.intercalate "," (jsArrParts xs)

/-- The element strings of `Array.prototype.join`: `undefined` and `null`
elements become the empty string. -/
def jsArrParts : List JSValue → List String
  | [] => []
  | .undefined :: vs => "" :: jsArrParts vs
  | .null :: vs => "" :: jsArrParts vs
  | v :: vs => jsToString v :: jsArrParts vs

end

/-- The eight own (enumerable, data) property names of the `typeValidators`
object literal — the supported type tags. -/
def supportedTypeTags : List String :=
  ["string", "number", "boolean", "array", "object", "email", "custom-regex",
    "custom-function"]

/-- The property names `typeValidators` inherits from `Object.prototype`
(including the Annex B members present in every mainstream engine). -/
def objectPrototypeMemberNames : List String :=
  ["constructor", "hasOwnProperty", "isPrototypeOf", "propertyIsEnumerable",
    "toLocaleString", "toString", "valueOf", "__defineGetter__",
    "__defineSetter__", "__lookupGetter__", "__lookupSetter__", "__proto__"]

/-- The lookup-and-call `typeValidators[type]?.(value)` in `validateType`.
The property lookup on the object literal resolves through the prototype
chain, so besides the eight own entries the `Object.prototype` members are
found and called with `this = typeValidators`:
`toString` and `toLocaleString` return `"[object Object]"` (truthy),
`valueOf` returns the validators object (truthy), `constructor` is
`Object(value)`, an object (truthy); `isPrototypeOf` is false for any
request-body value; `__lookupGetter__` / `__lookupSetter__` return a
function (truthy) exactly when `String(value)` is `"__proto__"` (the only
accessor on the chain; a data property ends the walk with `undefined`);
`hasOwnProperty` / `propertyIsEnumerable` are truthy exactly when
`String(value)` is one of the eight own keys.  Three inherited names are
outside this embedding's domain: for `type` equal to `"__proto__"`,
`"__defineGetter__"` or `"__defineSetter__"` the JS call throws a TypeError
and the handler aborts, a control path this state-passing model does not
represent; every theorem below that quantifies over type tags excludes
those three names.  Any other tag finds no property at all: the lookup
yields `undefined`, which is falsy, so the check fails. -/
def typeCheckPasses (type : Option String) (v : JSValue) : Bool :=
  match type with
  | none => false
  | some t =>
    if t = "string" then typeofJS v == "string"
    else if t = "number" then typeofJS v == "number"
    else if t = "boolean" then typeofJS v == "boolean"
    else if t = "array" then isArray v
    else if t = "object" then typeofJS v == "object" && !isArray v
    else if t = "email" then
      match v with
      | .str s => emailRegexTest s
      | _ => false
    else if t = "custom-regex" then true
    else if t = "custom-function" then true
    else if t = "toString" then true
    else if t = "toLocaleString" then true
    else if t = "valueOf" then true
    else if t = "constructor" then true
    else if t = "hasOwnProperty" then List.contains supportedTypeTags (jsToString v)
    else if t = "propertyIsEnumerable" then List.contains supportedTypeTags (jsToString v)
    else if t = "isPrototypeOf" then false
    else if t = "__lookupGetter__" then jsToString v == "__proto__"
    else if t = "__lookupSetter__" then jsToString v == "__proto__"
    else false

/-- `validateType(key, value, type, errors)`: returns the updated error list
and the boolean result (`false` pushes `"{key} should be a valid {type}"`). -/
def validateType (key : String) (v : JSValue) (type : Option String)
    (errors : List String) : List String × Bool :=
  if typeCheckPasses type v then (errors, true)
  else (errors ++ [key ++ " should be a valid " ++ typeTag type], false)

/-- `value.length` as read in `validateValue`: defined for strings (number of
characters) and arrays (number of elements); `none` models `undefined`, whose
numeric comparisons are all false. -/
def jsLength : JSValue → Option Int
  | .str s => some (s.length : Int)
  | .arr xs => some (xs.length : Int)
  | _ => none

/-- `value.length < m` under JS comparison (false when `.length` is absent). -/
def lengthLt (v : JSValue) (m : Int) : Bool :=
  match jsLength v with
  | some l => l < m
  | none => false

/-- `value.length > m` under JS comparison (false when `.length` is absent). -/
def lengthGt (v : JSValue) (m : Int) : Bool :=
  match jsLength v with
  | some l => m < l
  | none => false

/-- Errors pushed by the `min` block of `validateValue`: guard
`(type === "string" || type === "array") && min !== undefined &&
value.length < min`; the string message is
`` `${key} should have at least ${min} characters` `` and the array message
`` ` ${key} should have at least ${min} items` `` (note the leading space). -/
def minLengthErrors (key : String) (type : Option String) (v : JSValue) :
    Option Int → List String
  | some m =>
    if (type == some "string" || type == some "array") && lengthLt v m then
      if type == some "string" then
        [key ++ " should have at least " ++ toString m ++ " characters"]
      else
        [" " ++ key ++ " should have at least " ++ toString m ++ " items"]
    else []
  | none => []

/-- Errors pushed by the `max` block of `validateValue`: guard
`(type === "string" || type === "array") && max !== undefined &&
value.length > max`; the string message is
`` `${key} should have at most ${max} characters` `` and the array message
`` `${key} should have at most ${max} items;` `` (note the trailing
semicolon). -/
def maxLengthErrors (key : String) (type : Option String) (v : JSValue) :
    Option Int → List String
  | some m =>
    if (type == some "string" || type == some "array") && lengthGt v m then
      if type == some "string" then
        [key ++ " should have at most " ++ toString m ++ " characters"]
      else
        [key ++ " should have at most " ++ toString m ++ " items;"]
    else []
  | none => []

/-- Errors pushed by the regex block of `validateValue`:
`if (type == "custom-regex" && regex && !regex.test(value))`. -/
def regexErrors (key : String) (type : Option String) (v : JSValue) :
    Option (JSValue → Bool) → List String
  | some r => if type == some "custom-regex" && !r v then [key ++ " is invalid"] else []
  | none => []

/-- Errors pushed by the custom-validator block of `validateValue`: the
returned message is appended only when truthy (so neither `undefined` nor
the empty string). -/
def customErrors (v : JSValue) : Option (JSValue → Option String) → List String
  | some f =>
    match f v with
    | some s => if s = "" then [] else [s]
    | none => []
  | none => []

/-- JS object assignment `validatedData[key] = value` on the association-list
model: overwrite an existing binding in place, else append. -/
def setKey (d : List (String × JSValue)) (k : String) (v : JSValue) :
    List (String × JSValue) :=
  if List.any d (fun p => p.1 == k) then
    List.map (fun p => if p.1 == k then (k, v) else p) d
  else d ++ [(k, v)]

/-- `validateValue(key, value, type, {min, max, regex, customValidator},
errors, validatedData)`: pushes the constraint errors in source order, then —
only if the GLOBAL error list is still empty — records the value in
`validatedData`. -/
def validateValue (key : String) (v : JSValue) (type : Option String)
    (min max : Option Int) (regex : Option (JSValue → Bool))
    (customValidator : Option (JSValue → Option String))
    (errors : List String) (validatedData : List (String × JSValue)) :
    List String × List (String × JSValue) :=
  let errors := errors ++ minLengthErrors key type v min
  let errors := errors ++ maxLengthErrors key type v max
  let errors := errors ++ regexErrors key type v regex
  let errors := errors ++ customErrors v customValidator
  if errors.isEmpty then (errors, setKey validatedData key v)
  else (errors, validatedData)

/-- The body of the `rules.forEach` callback, as a transition on the
`(errors, validatedData)` state. -/
def processRule (body : Body) (st : List String × List (String × JSValue))
    (rule : Rule) : List String × List (String × JSValue) :=
  let value := lookupBody body rule.key
  if rule.required && !isPresent value then
    (st.1 ++ [rule.key ++ " is required"], st.2)
  else if !isPresent value then st
  else
    let tr := validateType rule.key value rule.type st.1
    if tr.2 then
      validateValue rule.key value rule.type rule.min rule.max rule.regex
        rule.customValidator tr.1 st.2
    else (tr.1, st.2)

/-- The whole `rules.forEach` loop, starting from empty `errors` and
`validatedData`. -/
def processRules (rules : List Rule) (body : Body) :
    List String × List (String × JSValue) :=
  List.foldl (processRule body) ([], []) rules

/-- The error strings contributed by a single rule (they do not depend on the
state accumulated by earlier rules, only the sanitization decision does). -/
def ruleErrors (body : Body) (rule : Rule) : List String :=
  (processRule body ([], []) rule).1

def HTTP_STATUS_OK : Int := 200

def HTTP_STATUS_BAD_REQUEST : Int := 400

/-- Observable outcome of one middleware invocation: either a response
`res.status(transport).json({status: payloadStatus, message})`, or
`req.body = newBody; next()`. -/
inductive HandlerResult where
  | respond (transport : Int) (payloadStatus : Int) (message : List String)
  | next (newBody : List (String × JSValue))

/-- The middleware produced by `validateRequestBody(rules)`, applied to a
request body: on any error, `res.status(HTTP_STATUS_OK).json({status:
HTTP_STATUS_BAD_REQUEST, message: errors})`; otherwise `req.body` is replaced
by `validatedData` and `next()` is called. -/
def validateRequestBody (rules : List Rule) (body : Body) : HandlerResult :=
  let st := processRules rules body
  if st.1.isEmpty then .next st.2
  else .respond HTTP_STATUS_OK HTTP_STATUS_BAD_REQUEST st.1

/-- The keys a sanitized body binds, in insertion order. -/
def keysOf (d : List (String × JSValue)) : List String :=
  List.map Prod.fst d

/-- The errors appended by the constraint blocks of `validateValue`, in
source order. -/
def constraintErrors (key : String) (type : Option String) (v : JSValue)
    (mn mx : Option Int) (rg : Option (JSValue → Bool))
    (cv : Option (JSValue → Option String)) : List String :=
  minLengthErrors key type v mn ++ maxLengthErrors key type v mx ++
    regexErrors key type v rg ++ customErrors v cv

/-- Closed form of the error strings one rule contributes, independent of the
accumulated state. -/
def ruleErrorsFun (body : Body) (r : Rule) : List String :=
  let value := lookupBody body r.key
  if r.required && !isPresent value then [r.key ++ " is required"]
  else if !isPresent value then []
  else if typeCheckPasses r.type value then
    constraintErrors r.key r.type value r.min r.max r.regex r.customValidator
  else [r.key ++ " should be a valid " ++ typeTag r.type]

theorem validateType_snd (key : String) (v : JSValue) (type : Option String)
    (e : List String) : (validateType key v type e).2 = typeCheckPasses type v := by
  unfold validateType
  split <;> simp_all

theorem validateType_fst_pass (key : String) (v : JSValue) (type : Option String)
    (e : List String) (h : typeCheckPasses type v = true) :
    (validateType key v type e).1 = e := by
  simp [validateType, h]

theorem validateType_fst_fail (key : String) (v : JSValue) (type : Option String)
    (e : List String) (h : typeCheckPasses type v = false) :
    (validateType key v type e).1 = e ++ [key ++ " should be a valid " ++ typeTag type] := by
  simp [validateType, h]

theorem validateValue_fst (key : String) (v : JSValue) (type : Option String)
    (mn mx : Option Int) (rg : Option (JSValue → Bool))
    (cv : Option (JSValue → Option String)) (e : List String)
    (d : List (String × JSValue)) :
    (validateValue key v type mn mx rg cv e d).1 =
      e ++ constraintErrors key type v mn mx rg cv := by
  unfold validateValue constraintErrors
  dsimp only
  split <;> simp [List.append_assoc]

theorem validateValue_snd (key : String) (v : JSValue) (type : Option String)
    (mn mx : Option Int) (rg : Option (JSValue → Bool))
    (cv : Option (JSValue → Option String)) (e : List String)
    (d : List (String × JSValue)) :
    (validateValue key v type mn mx rg cv e d).2 =
      if (validateValue key v type mn mx rg cv e d).1.isEmpty then setKey d key v
      else d := by
  unfold validateValue
  dsimp only
  split <;> rename_i h <;> simp [h]

theorem processRule_fst (body : Body) (st : List String × List (String × JSValue))
    (r : Rule) : (processRule body st r).1 = st.1 ++ ruleErrorsFun body r := by
  unfold processRule ruleErrorsFun
  by_cases h1 : (r.required && !isPresent (lookupBody body r.key)) = true
  · simp [h1]
  · simp only [h1, if_false]
    by_cases h2 : (!isPresent (lookupBody body r.key)) = true
    · simp [h2]
    · simp only [h2, if_false]
      by_cases h3 : typeCheckPasses r.type (lookupBody body r.key) = true
      · simp [validateType_snd, h3, validateType_fst_pass, validateValue_fst]
      · rw [Bool.not_eq_true] at h3
        simp [validateType_snd, h3, validateType_fst_fail]

theorem mem_keysOf_setKey (d : List (String × JSValue)) (k : String) (v : JSValue)
    (kk : String) : kk ∈ keysOf (setKey d k v) ↔ kk ∈ keysOf d ∨ kk = k := by
  unfold setKey keysOf
  split
  · rename_i h
    have hk : k ∈ List.map Prod.fst d := by
      rw [List.any_eq_true] at h
      obtain ⟨p, hp, hpk⟩ := h
      rw [beq_iff_eq] at hpk
      exact hpk ▸ List.mem_map_of_mem Prod.fst hp
    have hmap : List.map Prod.fst (List.map (fun p => if p.1 == k then (k, v) else p) d) =
        List.map Prod.fst d := by
      rw [List.map_map]
      apply List.map_congr_left
      intro p _
      by_cases hpk : p.1 = k
      · simp [hpk]
      · simp [hpk]
    rw [hmap]
    constructor
    · exact Or.inl
    · rintro (hmem | rfl)
      · exact hmem
      · exact hk
  · simp [List.map_append, List.mem_append]

theorem processRule_mem_keys (body : Body)
    (st : List String × List (String × JSValue)) (r : Rule) (kk : String) :
    kk ∈ keysOf (processRule body st r).2 ↔
      kk ∈ keysOf st.2 ∨
        (kk = r.key ∧ isPresent (lookupBody body r.key) = true ∧
          (processRule body st r).1 = []) := by
  unfold processRule
  by_cases h1 : (r.required && !isPresent (lookupBody body r.key)) = true
  · have hpres : isPresent (lookupBody body r.key) = false := by
      rcases Bool.and_eq_true_iff.mp h1 with ⟨_, hb⟩
      simpa using hb
    rw [if_pos h1]
    simp [hpres]
  · rw [if_neg h1]
    by_cases h2 : (!isPresent (lookupBody body r.key)) = true
    · have hpres : isPresent (lookupBody body r.key) = false := by simpa using h2
      rw [if_pos h2]
      simp [hpres]
    · have hpres : isPresent (lookupBody body r.key) = true := by simpa using h2
      rw [if_neg h2]
      by_cases h3 : typeCheckPasses r.type (lookupBody body r.key) = true
      · have hts : (validateType r.key (lookupBody body r.key) r.type st.1).2 = true := by
          rw [validateType_snd]
          exact h3
        rw [if_pos hts, validateValue_snd, validateValue_fst,
          validateType_fst_pass _ _ _ _ h3]
        by_cases hemp :
            (st.1 ++ constraintErrors r.key r.type (lookupBody body r.key) r.min r.max
              r.regex r.customValidator).isEmpty = true
        · have hnil : st.1 ++ constraintErrors r.key r.type (lookupBody body r.key) r.min
              r.max r.regex r.customValidator = [] := by simpa using hemp
          rw [if_pos hemp]
          simp [mem_keysOf_setKey, hpres, hnil]
        · have hne : st.1 ++ constraintErrors r.key r.type (lookupBody body r.key) r.min
              r.max r.regex r.customValidator ≠ [] := by
            intro hcon
            apply hemp
            rw [hcon]
            rfl
          rw [if_neg hemp]
          simp [hpres, hne]
      · have hts : ¬(validateType r.key (lookupBody body r.key) r.type st.1).2 = true := by
          rw [validateType_snd]
          exact h3
        have h3f : typeCheckPasses r.type (lookupBody body r.key) = false := by
          simpa using h3
        rw [if_neg hts, validateType_fst_fail _ _ _ _ h3f]
        simp

theorem foldl_processRule_fst (body : Body) (rules : List Rule) :
    ∀ st : List String × List (String × JSValue),
      (List.foldl (processRule body) st rules).1 =
        st.1 ++ (List.map (ruleErrorsFun body) rules).flatten := by
  induction rules with
  | nil => intro st; simp
  | cons r rs ih =>
      intro st
      rw [List.foldl_cons, ih, processRule_fst, List.map_cons, List.flatten_cons,
        List.append_assoc]

theorem foldl_processRule_keys_present (body : Body) (rules : List Rule) :
    ∀ (st : List String × List (String × JSValue)) (kk : String),
      kk ∈ keysOf (List.foldl (processRule body) st rules).2 →
        kk ∈ keysOf st.2 ∨ isPresent (lookupBody body kk) = true := by
  induction rules with
  | nil => intro st kk h; exact Or.inl h
  | cons r rs ih =>
      intro st kk h
      rcases ih (processRule body st r) kk h with hmem | hpres
      · rcases (processRule_mem_keys body st r kk).mp hmem with hmem2 | ⟨hk, hp, _⟩
        · exact Or.inl hmem2
        · exact Or.inr (hk ▸ hp)
      · exact Or.inr hpres

theorem foldl_processRule_keys_iff (body : Body) (rules : List Rule) :
    ∀ (st : List String × List (String × JSValue)) (kk : String),
      kk ∉ List.map Rule.key rules →
        (kk ∈ keysOf (List.foldl (processRule body) st rules).2 ↔ kk ∈ keysOf st.2) := by
  induction rules with
  | nil => intro st kk _; rfl
  | cons r rs ih =>
      intro st kk hk
      rw [List.map_cons, List.mem_cons] at hk
      push_neg at hk
      rw [List.foldl_cons, ih (processRule body st r) kk hk.2,
        processRule_mem_keys body st r kk]
      simp [hk.1]

theorem ruleErrors_eq (body : Body) (r : Rule) :
    ruleErrors body r = ruleErrorsFun body r := by
  have h := processRule_fst body ([], []) r
  simpa [ruleErrors] using h

/-- The final error list is exactly the concatenation, in rule order, of the
errors each rule contributes on its own. -/
theorem processRules_fst_join (rules : List Rule) (body : Body) :
    (processRules rules body).1 = (List.map (ruleErrors body) rules).flatten := by
  unfold processRules
  rw [foldl_processRule_fst]
  have hmap : List.map (ruleErrors body) rules = List.map (ruleErrorsFun body) rules :=
    List.map_congr_left fun r _ => ruleErrors_eq body r
  rw [hmap]
  rfl

/-- Claim C3: after processing all rules, a non-empty error list yields a
response whose transport status is the OK code (200) and whose payload is
`status: 400` with the errors in rule-evaluation order (the concatenation of
the per-rule contributions); an empty error list replaces the body with the
sanitized record and signals continuation. -/
theorem outcome_dispatch_eq (rules : List Rule) (body : Body) :
    validateRequestBody rules body =
      if (List.map (ruleErrors body) rules).flatten.isEmpty then
        HandlerResult.next (processRules rules body).2
      else
        HandlerResult.respond HTTP_STATUS_OK HTTP_STATUS_BAD_REQUEST
          ((List.map (ruleErrors body) rules).flatten) := by
  unfold validateRequestBody
  rw [← processRules_fst_join]

/-- Claim C8: with the empty rule list the handler never rejects: for every
request body the error list stays empty, the body becomes the empty sanitized
record, and continuation is signalled. -/
theorem empty_rules_always_next (body : Body) :
    validateRequestBody [] body = HandlerResult.next [] := rfl

/-- Claim C5: a rule with `required = true` whose value is absent contributes
exactly the single error `"{key} is required"`, and no type, constraint, or
custom check runs for that key (the state changes in no other way). -/
theorem required_absent_single_error (rule : Rule) (body : Body)
    (st : List String × List (String × JSValue)) (hreq : rule.required = true)
    (habs : isPresent (lookupBody body rule.key) = false) :
    processRule body st rule = (st.1 ++ [rule.key ++ " is required"], st.2) := by
  have hc : (rule.required && !isPresent (lookupBody body rule.key)) = true := by
    rw [hreq, habs]
    rfl
  unfold processRule
  rw [if_pos hc]

theorem required_absent_single_error_inst :
    processRule ([] : Body) (([], []) : List String × List (String × JSValue))
      ({ key := "a", required := true } : Rule) = (["a is required"], []) := by
  have h := required_absent_single_error ({ key := "a", required := true } : Rule)
    ([] : Body) (([], []) : List String × List (String × JSValue)) rfl rfl
  simpa using h

/-- Claim C4: for a rule of type `number` and a present numeric value, no
min/max (range) error is ever produced, whatever `min` and `max` are: the
rule contributes only whatever its custom validator returns. -/
theorem number_rule_no_range_errors (rule : Rule) (body : Body) (n : Int)
    (ht : rule.type = some "number") (hv : lookupBody body rule.key = JSValue.num n) :
    ruleErrors body rule = customErrors (JSValue.num n) rule.customValidator := by
  rw [ruleErrors_eq]
  unfold ruleErrorsFun
  dsimp only
  rw [hv, ht]
  have hpres : isPresent (JSValue.num n) = true := rfl
  have htc : typeCheckPasses (some "number") (JSValue.num n) = true := rfl
  have hmin : minLengthErrors rule.key (some "number") (JSValue.num n) rule.min = [] := by
    cases h : rule.min <;> rfl
  have hmax : maxLengthErrors rule.key (some "number") (JSValue.num n) rule.max = [] := by
    cases h : rule.max <;> rfl
  have hreg : regexErrors rule.key (some "number") (JSValue.num n) rule.regex = [] := by
    cases h : rule.regex <;> rfl
  simp [hpres, htc, constraintErrors, hmin, hmax, hreg]

theorem number_rule_no_range_errors_inst :
    ruleErrors ([("n", JSValue.num 5)] : Body)
      ({ key := "n", type := some "number", min := some 10, max := some 0 } : Rule) = [] := by
  rw [number_rule_no_range_errors
    ({ key := "n", type := some "number", min := some 10, max := some 0 } : Rule)
    ([("n", JSValue.num 5)] : Body) 5 rfl rfl]
  rfl

/-- Claim C6: a rule with `required = false` whose value is absent contributes
no error at all, and its key never appears in the final sanitized body of any
run over that request body. -/
theorem optional_absent_no_effect (rule : Rule) (rules : List Rule) (body : Body)
    (hreq : rule.required = false)
    (habs : isPresent (lookupBody body rule.key) = false) :
    ruleErrors body rule = [] ∧ rule.key ∉ keysOf (processRules rules body).2 := by
  constructor
  · rw [ruleErrors_eq]
    unfold ruleErrorsFun
    dsimp only
    rw [hreq, habs]
    rfl
  · intro hmem
    unfold processRules at hmem
    rcases foldl_processRule_keys_present body rules ([], []) rule.key hmem with h | h
    · simp [keysOf] at h
    · rw [habs] at h
      exact Bool.noConfusion h

theorem optional_absent_no_effect_inst :
    ruleErrors ([] : Body) ({ key := "x" } : Rule) = [] ∧
      "x" ∉ keysOf (processRules [({ key := "x" } : Rule)] ([] : Body)).2 :=
  optional_absent_no_effect ({ key := "x" } : Rule) [({ key := "x" } : Rule)]
    ([] : Body) rfl rfl

/-- Claim C9 fails as stated at the tag `"toString"`: it is not one of the
eight supported tags, yet on a present value the type check PASSES —
`typeValidators["toString"]?.(value)` finds the inherited
`Object.prototype.toString`, whose result is truthy — so no error is
appended and the constraint/sanitization steps do run, placing the value in
the sanitized body. -/
theorem inherited_tag_passes_type_check :
    ("toString" ∉ supportedTypeTags) ∧
      ruleErrors ([("z", JSValue.num 1)] : Body)
        ({ key := "z", type := some "toString" } : Rule) = [] ∧
      "z" ∈ keysOf (processRules [({ key := "z", type := some "toString" } : Rule)]
        ([("z", JSValue.num 1)] : Body)).2 := by
  refine ⟨by decide, by decide, by decide⟩

/-- Claim C9 (amended): a rule whose `type` is neither one of the eight
supported tags nor one of the `Object.prototype` member names found by the
prototype-chain lookup (for `"__proto__"`, `"__defineGetter__"` and
`"__defineSetter__"` the call throws instead), on a present value, fails the
type check with `"{key} should be a valid {type}"` and runs no constraint or
custom check (the state changes in no other way). -/
theorem unknown_type_tag_fails (rule : Rule) (body : Body)
    (st : List String × List (String × JSValue)) (t : String)
    (ht : rule.type = some t)
    (hsup : t ∉ supportedTypeTags)
    (hinh : t ∉ objectPrototypeMemberNames)
    (hp : isPresent (lookupBody body rule.key) = true) :
    processRule body st rule =
      (st.1 ++ [rule.key ++ " should be a valid " ++ t], st.2) := by
  simp only [supportedTypeTags, List.mem_cons, List.not_mem_nil, or_false,
    not_or] at hsup
  simp only [objectPrototypeMemberNames, List.mem_cons, List.not_mem_nil, or_false,
    not_or] at hinh
  obtain ⟨h1, h2, h3, h4, h5, h6, h7, h8⟩ := hsup
  obtain ⟨g1, g2, g3, g4, g5, g6, g7, g8, g9, g10, g11, g12⟩ := hinh
  have htc : typeCheckPasses rule.type (lookupBody body rule.key) = false := by
    rw [ht]
    unfold typeCheckPasses
    dsimp only
    rw [if_neg h1, if_neg h2, if_neg h3, if_neg h4, if_neg h5, if_neg h6, if_neg h7,
      if_neg h8, if_neg g6, if_neg g5, if_neg g7, if_neg g1, if_neg g2, if_neg g4,
      if_neg g3, if_neg g10, if_neg g11]
  have hc1 : ¬(rule.required && !isPresent (lookupBody body rule.key)) = true := by
    rw [hp]
    simp
  have hc2 : ¬(!isPresent (lookupBody body rule.key)) = true := by
    rw [hp]
    simp
  have hts : ¬(validateType rule.key (lookupBody body rule.key) rule.type st.1).2 = true := by
    rw [validateType_snd, htc]
    simp
  unfold processRule
  rw [if_neg hc1, if_neg hc2, if_neg hts, validateType_fst_fail _ _ _ _ htc, ht]
  rfl

theorem unknown_type_tag_fails_inst :
    processRule ([("z", JSValue.num 1)] : Body)
      (([], []) : List String × List (String × JSValue))
      ({ key := "z", type := some "integer" } : Rule) =
      (["z should be a valid integer"], []) := by
  have h := unknown_type_tag_fails ({ key := "z", type := some "integer" } : Rule)
    ([("z", JSValue.num 1)] : Body) (([], []) : List String × List (String × JSValue))
    "integer" rfl (by decide) (by decide) rfl
  simpa using h

/-- Claim C1 (amended): restricted to a rule whose key occurs nowhere else in
the list AND whose value is present in the body, the key appears in the final
sanitized body iff, at the moment that rule's own evaluation completed, the
accumulated error list was still empty.  (The claim's extension to keys with
absent values is refuted by `absent_key_breaks_sanitized_iff`.) -/
theorem mem_sanitized_iff_errors_empty (pre post : List Rule) (r : Rule) (body : Body)
    (hpre : r.key ∉ List.map Rule.key pre) (hpost : r.key ∉ List.map Rule.key post)
    (hp : isPresent (lookupBody body r.key) = true) :
    (r.key ∈ keysOf (processRules (pre ++ r :: post) body).2 ↔
      (processRules (pre ++ [r]) body).1 = []) := by
  unfold processRules
  have hsplit : pre ++ r :: post = (pre ++ [r]) ++ post := by simp
  rw [hsplit, List.foldl_append (processRule body) ([], []) (pre ++ [r]) post,
    foldl_processRule_keys_iff body post _ _ hpost,
    List.foldl_append (processRule body) ([], []) pre [r]]
  have hsingle : ∀ st, List.foldl (processRule body) st [r] = processRule body st r :=
    fun st => rfl
  rw [hsingle]
  have h0 : r.key ∉ keysOf (List.foldl (processRule body) ([], []) pre).2 := by
    rw [foldl_processRule_keys_iff body pre ([], []) r.key hpre]
    simp [keysOf]
  rw [processRule_mem_keys body (List.foldl (processRule body) ([], []) pre) r r.key]
  simp [h0, hp]

theorem mem_sanitized_iff_errors_empty_inst :
    ("a" ∈ keysOf (processRules [({ key := "a", type := some "string" } : Rule)]
        ([("a", JSValue.str "x")] : Body)).2) ↔
      (processRules [({ key := "a", type := some "string" } : Rule)]
        ([("a", JSValue.str "x")] : Body)).1 = [] :=
  mem_sanitized_iff_errors_empty [] [] ({ key := "a", type := some "string" } : Rule)
    ([("a", JSValue.str "x")] : Body) (by simp) (by simp) (by decide)

/-- Claim C1 fails as stated when extended to keys whose value is absent: a
not-required rule for an absent key completes with the error list still
empty, yet its key is not in the sanitized body. -/
theorem absent_key_breaks_sanitized_iff :
    ¬ (("a" ∈ keysOf (processRules [({ key := "a" } : Rule)] ([] : Body)).2) ↔
        (processRules [({ key := "a" } : Rule)] ([] : Body)).1 = []) := by
  decide

/-- Claim C2 fails in its converse half as stated: under the stated rules
`[{key: "a", required: true}, {key: "b", type: "string"}]` the rule for `a`
carries no `type`, so a body where `a` is present (passing the required
check) and `b` fails its type check still leaves `a` out of the sanitized
body — `a` itself fails the type check with `"a should be a valid
undefined"`, so "a passes" is impossible under these rules. -/
theorem converse_scenario_fails_untyped :
    isPresent (lookupBody ([("a", JSValue.str "hello"), ("b", JSValue.num 5)] : Body) "a")
        = true ∧
      "b should be a valid string" ∈
        (processRules [({ key := "a", required := true } : Rule),
          ({ key := "b", type := some "string" } : Rule)]
          ([("a", JSValue.str "hello"), ("b", JSValue.num 5)] : Body)).1 ∧
      "a should be a valid undefined" ∈
        (processRules [({ key := "a", required := true } : Rule),
          ({ key := "b", type := some "string" } : Rule)]
          ([("a", JSValue.str "hello"), ("b", JSValue.num 5)] : Body)).1 ∧
      "a" ∉ keysOf (processRules [({ key := "a", required := true } : Rule),
          ({ key := "b", type := some "string" } : Rule)]
          ([("a", JSValue.str "hello"), ("b", JSValue.num 5)] : Body)).2 := by
  refine ⟨rfl, by decide, by decide, by decide⟩

/-- Claim C2 (amended): with rule `a` given a satisfiable type, `[{key: "a",
type: "string", required: true}, {key: "b", type: "string"}]`: on body
`{b: "ok"}` the error list is exactly `["a is required"]` and `b` is not in
the sanitized body although it individually passed; conversely on body
`{a: "ok", b: 1}` the key `a` is in the sanitized body while the outcome is
still a rejection carrying `b`'s type error. -/
theorem ordering_quirk_typed :
    (processRules [({ key := "a", type := some "string", required := true } : Rule),
        ({ key := "b", type := some "string" } : Rule)]
        ([("b", JSValue.str "ok")] : Body)).1 = ["a is required"] ∧
      "b" ∉ keysOf (processRules
        [({ key := "a", type := some "string", required := true } : Rule),
          ({ key := "b", type := some "string" } : Rule)]
        ([("b", JSValue.str "ok")] : Body)).2 ∧
      "a" ∈ keysOf (processRules
        [({ key := "a", type := some "string", required := true } : Rule),
          ({ key := "b", type := some "string" } : Rule)]
        ([("a", JSValue.str "ok"), ("b", JSValue.num 1)] : Body)).2 ∧
      validateRequestBody
        [({ key := "a", type := some "string", required := true } : Rule),
          ({ key := "b", type := some "string" } : Rule)]
        ([("a", JSValue.str "ok"), ("b", JSValue.num 1)] : Body) =
        HandlerResult.respond HTTP_STATUS_OK HTTP_STATUS_BAD_REQUEST
          ["b should be a valid string"] := by
  refine ⟨by decide, by decide, by decide, by rfl⟩

/-- Claim C7: for type `string` with `min = 3` the present value `"ab"`
produces exactly `"{key} should have at least 3 characters"` and `"abc"`
produces no error; for type `array` with `max = 2` the value `[1, 2, 3]`
produces an error containing the text `"at most 2 items"`. -/
theorem string_min_array_max_examples :
    ruleErrors ([("k", JSValue.str "ab")] : Body)
        ({ key := "k", type := some "string", min := some 3 } : Rule) =
        ["k should have at least 3 characters"] ∧
      ruleErrors ([("k", JSValue.str "abc")] : Body)
        ({ key := "k", type := some "string", min := some 3 } : Rule) = [] ∧
      ∃ a b, ruleErrors
        ([("k", JSValue.arr [JSValue.num 1, JSValue.num 2, JSValue.num 3])] : Body)
        ({ key := "k", type := some "array", max := some 2 } : Rule) =
        [a ++ "at most 2 items" ++ b] :=
  ⟨by decide, by decide, "k should have ", ";", by decide⟩

/-- Claim C10: the array length-violation messages differ from the string
wording, in two independent universals: every array rule failing `min`
(whatever `max` is, set or not) appends a message with a leading space, and
every array rule failing `max` (whatever `min` is) appends a message with a
trailing semicolon. -/
theorem array_message_wording (key : String) (xs : List JSValue) (mn mx : Option Int)
    (m M : Int) (rg : Option (JSValue → Bool)) (cv : Option (JSValue → Option String))
    (e : List String) (d : List (String × JSValue)) :
    ((xs.length : Int) < m →
      (validateValue key (JSValue.arr xs) (some "array") (some m) mx rg cv e d).1 =
        e ++ [" " ++ key ++ " should have at least " ++ toString m ++ " items"] ++
          maxLengthErrors key (some "array") (JSValue.arr xs) mx ++
          customErrors (JSValue.arr xs) cv) ∧
    (M < (xs.length : Int) →
      (validateValue key (JSValue.arr xs) (some "array") mn (some M) rg cv e d).1 =
        e ++ minLengthErrors key (some "array") (JSValue.arr xs) mn ++
          [key ++ " should have at most " ++ toString M ++ " items;"] ++
          customErrors (JSValue.arr xs) cv) := by
  have h3 : regexErrors key (some "array") (JSValue.arr xs) rg = [] := by
    cases rg <;> rfl
  constructor
  · intro hmin
    rw [validateValue_fst]
    have hlt : lengthLt (JSValue.arr xs) m = true := decide_eq_true hmin
    have h1 : minLengthErrors key (some "array") (JSValue.arr xs) (some m) =
        [" " ++ key ++ " should have at least " ++ toString m ++ " items"] := by
      unfold minLengthErrors
      dsimp only
      rw [hlt]
      rfl
    unfold constraintErrors
    rw [h1, h3]
    simp [List.append_assoc]
  · intro hmax
    rw [validateValue_fst]
    have hgt : lengthGt (JSValue.arr xs) M = true := decide_eq_true hmax
    have h2 : maxLengthErrors key (some "array") (JSValue.arr xs) (some M) =
        [key ++ " should have at most " ++ toString M ++ " items;"] := by
      unfold maxLengthErrors
      dsimp only
      rw [hgt]
      rfl
    unfold constraintErrors
    rw [h2, h3]
    simp [List.append_assoc]

theorem array_message_wording_inst :
    (validateValue "k" (JSValue.arr [JSValue.num 1]) (some "array") (some 5) Option.none
        Option.none Option.none [] []).1 = [" k should have at least 5 items"] ∧
      (validateValue "k" (JSValue.arr [JSValue.num 1]) (some "array") Option.none (some 0)
        Option.none Option.none [] []).1 = ["k should have at most 0 items;"] := by
  constructor
  · rw [(array_message_wording "k" [JSValue.num 1] Option.none Option.none 5 0 Option.none
      Option.none [] []).1 (by decide)]
    decide
  · rw [(array_message_wording "k" [JSValue.num 1] Option.none Option.none 5 0 Option.none
      Option.none [] []).2 (by decide)]
    decide

end VRB
